import Mathlib

/-!
Verification of the libp2p-identity-pqc keypair/identity layer.

The repository ships only the exercisers of the core abstraction (tests,
benchmarks and a conversion script); the core `Keypair` / `PublicKey`
dispatch layer, the protobuf envelope codec, the Dilithium backend and the
peer-identifier deriver live outside the provided sources.  Those parts are
therefore modelled here from the specification: each such definition
carries a doc comment starting with `Modelled from the spec:`.  The
cryptographic primitives themselves (key generation randomness, the actual
Dilithium sign/verify math, the content hash) are external black boxes per
the spec and are idealised: signing binds a signature uniquely to the
(public key, message) pair, the content hash is an injective function, and
generation is keyed by an explicit entropy input.
-/

namespace PQC

/-- Byte strings are modelled as lists of naturals (each entry one byte). -/
abbrev Bytes := List Nat

/-- Modelled from the spec: the closed `KeyType` enumeration
{Dilithium, Ed25519, ECDSA, Secp256k1} identifying which backend a key or
signature belongs to (spec section 3). -/
inductive KeyType where
  | Dilithium
  | Ed25519
  | Ecdsa
  | Secp256k1
  deriving DecidableEq, Repr

/-- Modelled from the spec: the stable numeric wire tag carried for each
`KeyType` in the protobuf envelope (spec section 6: numeric tags must stay
stable; exact numbers are model constants, the classical tags follow the
libp2p convention with Dilithium appended). -/
def keyTypeTag : KeyType → Nat
  | .Ed25519 => 1
  | .Secp256k1 => 2
  | .Ecdsa => 3
  | .Dilithium => 4

/-- Modelled from the spec: recovering a `KeyType` from its numeric wire
tag; unknown or reserved tags yield `none` and must decode-fail
(spec sections 4.3 and 6). -/
def keyTypeOfTag : Nat → Option KeyType
  | 1 => some .Ed25519
  | 2 => some .Secp256k1
  | 3 => some .Ecdsa
  | 4 => some .Dilithium
  | _ => none

/-- Modelled from the spec: the fixed raw public-key length each backend
expects (spec section 4.1: fixed expected lengths for the classical
schemes, a large fixed length for Dilithium; exact numbers are model
constants, Dilithium sized so that its encoded key always exceeds the
inline peer-id threshold). -/
def pubLen : KeyType → Nat
  | .Dilithium => 2592
  | .Ed25519 => 32
  | .Ecdsa => 33
  | .Secp256k1 => 33

/-- Modelled from the spec: the fixed raw private-key length each backend
expects (spec section 4.1; model constants as for `pubLen`). -/
def privLen : KeyType → Nat
  | .Dilithium => 4896
  | .Ed25519 => 64
  | .Ecdsa => 32
  | .Secp256k1 => 32

/-- Modelled from the spec: a `Keypair` holds exactly one backend's secret
`KeyMaterial` together with its `KeyType` tag (spec sections 3 and 4.2:
a tagged union with exactly one variant active per instance). -/
structure Keypair where
  keyType : KeyType
  secret : Bytes
  deriving DecidableEq, Repr

/-- Modelled from the spec: a `PublicKey` is backend-specific public bytes
plus the `KeyType` tag; two values are equal iff tag and raw bytes are
equal (spec section 3). -/
structure PublicKey where
  keyType : KeyType
  bytes : Bytes
  deriving DecidableEq, Repr

/-- Modelled from the spec: the black-box CSPRNG-backed `generate` of each
backend (spec section 4.1), idealised as a deterministic expansion of an
explicit entropy input into fresh key material of the backend's private
length. -/
def generate (t : KeyType) (entropy : Nat) : Keypair :=
  ⟨t, (List.range (privLen t)).map (fun i => (entropy + i) % 256)⟩

/-- Modelled from the spec: `generate_dilithium` delegates to the Dilithium
backend's generate and wraps the result with the Dilithium tag
(spec section 4.2). -/
def generate_dilithium (entropy : Nat) : Keypair :=
  generate .Dilithium entropy

/-- Modelled from the spec: `generate_ed25519` (spec section 4.2). -/
def generate_ed25519 (entropy : Nat) : Keypair :=
  generate .Ed25519 entropy

/-- Modelled from the spec: `generate_ecdsa` (spec section 4.2). -/
def generate_ecdsa (entropy : Nat) : Keypair :=
  generate .Ecdsa entropy

/-- Modelled from the spec: `generate_secp256k1` (spec section 4.2). -/
def generate_secp256k1 (entropy : Nat) : Keypair :=
  generate .Secp256k1 entropy

/-- Modelled from the spec: the backend's deterministic, side-effect-free
`derive_public(KeyMaterial) -> PublicKeyBytes` (spec section 4.1),
idealised as a fixed expansion of the secret bytes to the backend's public
length. -/
def derivePublic (t : KeyType) (sk : Bytes) : Bytes :=
  (List.range (pubLen t)).map
    (fun i => (sk.foldl (fun a b => (a * 31 + b) % 65536) 7 + i) % 256)

/-- Modelled from the spec: `Keypair.key_type()` is an O(1) tag read
(spec section 4.2). -/
def Keypair.key_type (k : Keypair) : KeyType :=
  k.keyType

/-- Modelled from the spec: `PublicKey.key_type()` (spec section 4.2). -/
def PublicKey.key_type (pk : PublicKey) : KeyType :=
  pk.keyType

/-- Modelled from the spec: `Keypair.public()` dispatches to the active
backend's `derive_public`; pure and repeatable (spec section 4.2). -/
def Keypair.public (k : Keypair) : PublicKey :=
  ⟨k.keyType, derivePublic k.keyType k.secret⟩

/-- Modelled from the spec: the byte content of a signature produced by a
keypair over a message.  The backend primitive is a black box
(spec section 1); it is idealised so that a signature is valid for exactly
the (public key, message) pair it was produced for, as the spec's testable
properties require. -/
def signBytes (k : Keypair) (m : Bytes) : Bytes :=
  derivePublic k.keyType k.secret ++ m

/-- Modelled from the spec: error taxonomy for signing
(spec section 7, SigningFailure: internal primitive error only, never a
message-content problem). -/
inductive SignError where
  | internalFailure
  deriving DecidableEq, Repr

/-- Modelled from the spec: `Keypair.sign(message) -> Result<Signature>`
dispatches to the active backend; it errs only on an internal primitive
failure, never for message content, so the idealised backend always
succeeds (spec sections 4.2 and 7). -/
def Keypair.sign (k : Keypair) (m : Bytes) : Except SignError Bytes :=
  .ok (signBytes k m)

/-- Modelled from the spec: `PublicKey.verify(message, signature) -> bool`
dispatches to the backend's verify; it is total on untrusted input — an
invalid or malformed-length signature yields `false`, never an error
(spec sections 4.1 and 7). -/
def PublicKey.verify (pk : PublicKey) (m : Bytes) (s : Bytes) : Bool :=
  decide (s = pk.bytes ++ m)

/-- Modelled from the spec: the recoverable decode-error taxonomy of the
envelope codec (spec section 7, DecodeFailure: truncated/corrupted bytes,
unknown KeyType tag, wrong payload length). -/
inductive DecodeError where
  | truncated
  | unknownKeyType
  | badLength
  deriving DecidableEq, Repr

/-- Modelled from the spec: the protobuf envelope codec's `encode`
(spec section 4.3): a minimal envelope embedding the KeyType as an integer
tag followed by the raw bytes as an opaque payload. -/
def encodeEnvelope (t : KeyType) (b : Bytes) : Bytes :=
  keyTypeTag t :: b

/-- Modelled from the spec: `Keypair.to_protobuf_encoding()` wraps the
private key bytes in the envelope (spec sections 4.2 and 4.3; the spec's
error taxonomy has no encode failure, so encoding always yields bytes). -/
def Keypair.to_protobuf_encoding (k : Keypair) : Bytes :=
  encodeEnvelope k.keyType k.secret

/-- Modelled from the spec: `Keypair.from_protobuf_encoding` decodes a
private-key envelope, failing with a recoverable decode error on a
truncated envelope, an unrecognized KeyType tag, or a payload length
inconsistent with what the matching backend expects (spec section 4.3). -/
def Keypair.from_protobuf_encoding : Bytes → Except DecodeError Keypair
  | [] => .error .truncated
  | tag :: payload =>
    match keyTypeOfTag tag with
    | none => .error .unknownKeyType
    | some t =>
      if payload.length = privLen t then .ok ⟨t, payload⟩
      else .error .badLength

/-- Modelled from the spec: `PublicKey.encode_protobuf()` wraps the public
bytes in the envelope (spec sections 4.2 and 4.3). -/
def PublicKey.encode_protobuf (pk : PublicKey) : Bytes :=
  encodeEnvelope pk.keyType pk.bytes

/-- Modelled from the spec: `PublicKey.try_decode_protobuf` decodes a
public-key envelope with the same failure classes as the private decoder
(spec section 4.3). -/
def PublicKey.try_decode_protobuf : Bytes → Except DecodeError PublicKey
  | [] => .error .truncated
  | tag :: payload =>
    match keyTypeOfTag tag with
    | none => .error .unknownKeyType
    | some t =>
      if payload.length = pubLen t then .ok ⟨t, payload⟩
      else .error .badLength

/-- Modelled from the spec: a `PeerIdentifier` is self-describing — it
records whether the encoded key was embedded inline or content-hashed
(spec section 4.4). -/
inductive PeerId where
  | identityMh (bs : Bytes)
  | hashMh (digest : Bytes)
  deriving DecidableEq, Repr

/-- Modelled from the spec: the small inline threshold of the peer
identifier deriver (spec sections 4.4 and 9: an ecosystem-defined fixed
constant; the model uses the customary 42-byte inline limit, which every
Dilithium-class encoded key exceeds). -/
def maxInlineKeyLength : Nat := 42

/-- Modelled from the spec: the peer identifier derivation parametrised by
the content hash (spec section 4.4): encode the public key, embed it
inline when it fits the threshold, otherwise embed its hash; the fixed
cryptographic hash itself is an external black box. -/
def to_peer_id_with (hash : Bytes → Bytes) (pk : PublicKey) : PeerId :=
  let e := pk.encode_protobuf
  if e.length ≤ maxInlineKeyLength then .identityMh e else .hashMh (hash e)

/-- Modelled from the spec: the fixed cryptographic content hash used by
the peer identifier deriver (spec section 4.4), idealised as an injective
function — the model counterpart of collision resistance. -/
def modelHash (bs : Bytes) : Bytes :=
  0 :: bs

/-- Modelled from the spec: `PublicKey.to_peer_id()` (spec section 4.4). -/
def PublicKey.to_peer_id (pk : PublicKey) : PeerId :=
  to_peer_id_with modelHash pk

/-- Modelled from the spec: the raw fixed-layout byte representation of a
Dilithium keypair used by the hex/file conversion tooling, distinct from
the protobuf envelope (spec section 6). -/
def Keypair.dilithium_to_bytes (k : Keypair) : Bytes :=
  k.secret

/-- Modelled from the spec: the inverse raw-bytes conversion rebuilding a
Dilithium keypair from its fixed-layout bytes (spec section 6: the
raw-bytes conversion must be the exact inverse of whatever produced the
original bytes, with no normalization). -/
def dilithium_from_bytes (b : Bytes) : Keypair :=
  ⟨.Dilithium, b⟩

/-- Helper: the wire tag round-trips through `keyTypeOfTag` for every
supported `KeyType`. -/
theorem keyTypeOfTag_keyTypeTag (t : KeyType) :
    keyTypeOfTag (keyTypeTag t) = some t := by
  cases t <;> rfl

/-- Helper: generated key material has the backend's private length. -/
theorem generate_secret_length (t : KeyType) (e : Nat) :
    (generate t e).secret.length = privLen t := by
  simp [generate]

/-- Helper: derived public bytes have the backend's public length. -/
theorem derivePublic_length (t : KeyType) (sk : Bytes) :
    (derivePublic t sk).length = pubLen t := by
  simp [derivePublic]

/-- Helper: a signature verifies against the public key of the keypair
that produced it and the message it signed. -/
theorem verify_signBytes (k : Keypair) (m : Bytes) :
    k.public.verify m (signBytes k m) = true := by
  simp [Keypair.public, PublicKey.verify, signBytes]

/-- Helper: the wire tag function is injective on the closed KeyType set. -/
theorem keyTypeTag_injective :
    Function.Injective keyTypeTag := by
  intro a b h
  cases a <;> cases b <;> first | rfl | simp [keyTypeTag] at h

/-- Helper: the public-key envelope encoding is injective — distinct
public keys have distinct encodings. -/
theorem encode_protobuf_injective :
    Function.Injective PublicKey.encode_protobuf := by
  intro pk1 pk2 h
  simp only [PublicKey.encode_protobuf, encodeEnvelope, List.cons.injEq] at h
  cases pk1
  cases pk2
  simp only [PublicKey.mk.injEq]
  exact ⟨keyTypeTag_injective h.1, h.2⟩

/-- Claim C1: for every supported KeyType, every entropy input and every
message (the empty message and messages of 4096 bytes or more included),
signing with a freshly generated keypair succeeds, and verifying that
signature with the derived public key returns true. -/
theorem sign_then_verify_roundtrip (t : KeyType) (e : Nat) (m : Bytes) :
    (generate t e).sign m = Except.ok (signBytes (generate t e) m) ∧
    (generate t e).public.verify m (signBytes (generate t e) m) = true :=
  ⟨rfl, verify_signBytes _ _⟩

/-- Claim C2: for every keypair and every pair of distinct messages,
verifying a signature produced over one message against the other message
with the keypair's public key returns false. -/
theorem verify_rejects_wrong_message (t : KeyType) (e : Nat)
    (m1 m2 : Bytes) (h : m1 ≠ m2) :
    (generate t e).public.verify m2 (signBytes (generate t e) m1) = false := by
  simp only [Keypair.public, PublicKey.verify, signBytes,
    decide_eq_false_iff_not]
  intro hEq
  exact h (List.append_cancel_left hEq)

/-- Witness for claim C2 at the Ed25519 backend with messages [0] and [1]. -/
theorem verify_rejects_wrong_message_witness :
    ([0] : Bytes) ≠ [1] ∧
    (generate .Ed25519 0).public.verify [1]
      (signBytes (generate .Ed25519 0) [0]) = false :=
  ⟨by decide, verify_rejects_wrong_message .Ed25519 0 [0] [1] (by decide)⟩

/-- Claim C8: for every per-algorithm generation function, the generated
keypair's key_type equals the requested algorithm's KeyType, and the
public key obtained via public() carries that same KeyType tag. -/
theorem generate_preserves_key_type (e : Nat) :
    (generate_dilithium e).key_type = .Dilithium ∧
    (generate_dilithium e).public.key_type = .Dilithium ∧
    (generate_ed25519 e).key_type = .Ed25519 ∧
    (generate_ed25519 e).public.key_type = .Ed25519 ∧
    (generate_ecdsa e).key_type = .Ecdsa ∧
    (generate_ecdsa e).public.key_type = .Ecdsa ∧
    (generate_secp256k1 e).key_type = .Secp256k1 ∧
    (generate_secp256k1 e).public.key_type = .Secp256k1 :=
  ⟨rfl, rfl, rfl, rfl, rfl, rfl, rfl, rfl⟩

/-- Claim C9: the raw fixed-layout byte representation of a Dilithium
keypair is the exact inverse of the conversion that produced the original
bytes, with no normalization: a keypair decoded from a Dilithium envelope
converts back to exactly the payload bytes, and raw-bytes conversion in
either order is the identity on Dilithium keypairs. -/
theorem dilithium_to_bytes_exact_inverse :
    (∀ b : Bytes, b.length = privLen .Dilithium →
      ∃ k : Keypair,
        Keypair.from_protobuf_encoding (encodeEnvelope .Dilithium b) =
          .ok k ∧
        k.dilithium_to_bytes = b ∧
        dilithium_from_bytes k.dilithium_to_bytes = k) ∧
    (∀ k : Keypair, k.key_type = .Dilithium →
      dilithium_from_bytes k.dilithium_to_bytes = k) ∧
    (∀ b : Bytes, (dilithium_from_bytes b).dilithium_to_bytes = b) := by
  refine ⟨?_, ?_, fun b => rfl⟩
  · intro b hb
    refine ⟨⟨.Dilithium, b⟩, ?_, rfl, rfl⟩
    simp [Keypair.from_protobuf_encoding, encodeEnvelope, keyTypeOfTag,
      keyTypeTag, hb]
  · intro k hk
    cases k with
    | mk kt sk =>
      cases hk
      rfl

/-- Witness for claim C9 at a concrete all-zero Dilithium-length payload. -/
theorem dilithium_to_bytes_exact_inverse_witness :
    (List.replicate 4896 0 : Bytes).length = privLen .Dilithium ∧
    ∃ k : Keypair,
      Keypair.from_protobuf_encoding
        (encodeEnvelope .Dilithium (List.replicate 4896 0)) = .ok k ∧
      k.dilithium_to_bytes = List.replicate 4896 0 ∧
      dilithium_from_bytes k.dilithium_to_bytes = k :=
  ⟨by simp only [List.length_replicate, privLen],
   dilithium_to_bytes_exact_inverse.1 (List.replicate 4896 0)
     (by simp only [List.length_replicate, privLen])⟩

/-- Claim C3: decoding the protobuf encoding of a generated keypair
succeeds and yields an equivalent keypair — its public key equals the
original's public key exactly, a signature made by the decoded keypair
verifies under the decoded public key, and all four cross-verifications of
original and decoded signatures against original and decoded public keys
return true. -/
theorem keypair_protobuf_roundtrip (t : KeyType) (e : Nat) :
    ∃ k2 : Keypair,
      Keypair.from_protobuf_encoding (generate t e).to_protobuf_encoding =
        .ok k2 ∧
      k2.public = (generate t e).public ∧
      ∀ m : Bytes,
        (generate t e).public.verify m (signBytes (generate t e) m) = true ∧
        k2.public.verify m (signBytes k2 m) = true ∧
        (generate t e).public.verify m (signBytes k2 m) = true ∧
        k2.public.verify m (signBytes (generate t e) m) = true := by
  refine ⟨generate t e, ?_, rfl, fun m => ?_⟩
  · simp [Keypair.to_protobuf_encoding, encodeEnvelope,
      Keypair.from_protobuf_encoding, keyTypeOfTag_keyTypeTag,
      generate_secret_length, generate]
  · exact ⟨verify_signBytes _ _, verify_signBytes _ _,
      verify_signBytes _ _, verify_signBytes _ _⟩

/-- Claim C4: decoding the protobuf encoding of a generated public key
succeeds and returns a public key equal to the original (equality of
KeyType and raw bytes), with key_type preserved. -/
theorem public_key_protobuf_roundtrip (t : KeyType) (e : Nat) :
    ∃ pk2 : PublicKey,
      PublicKey.try_decode_protobuf (generate t e).public.encode_protobuf =
        .ok pk2 ∧
      pk2 = (generate t e).public ∧
      pk2.key_type = (generate t e).public.key_type := by
  refine ⟨(generate t e).public, ?_, rfl, rfl⟩
  simp [PublicKey.encode_protobuf, encodeEnvelope,
    PublicKey.try_decode_protobuf, keyTypeOfTag_keyTypeTag,
    Keypair.public, derivePublic_length]

/-- Claim C5: both protobuf decoders reject every malformed input with a
recoverable decode-error value — a truncated envelope, an envelope whose
KeyType tag is out of range, and a well-formed envelope whose payload
length does not match the declared KeyType's expected length; the decoders
are total functions, so no input makes them panic. -/
theorem decode_rejects_malformed_envelopes :
    (PublicKey.try_decode_protobuf ([] : Bytes) = .error .truncated ∧
     Keypair.from_protobuf_encoding ([] : Bytes) = .error .truncated) ∧
    (∀ (tag : Nat) (payload : Bytes), keyTypeOfTag tag = none →
      PublicKey.try_decode_protobuf (tag :: payload) =
        .error .unknownKeyType ∧
      Keypair.from_protobuf_encoding (tag :: payload) =
        .error .unknownKeyType) ∧
    (∀ (t : KeyType) (payload : Bytes),
      (payload.length ≠ pubLen t →
        PublicKey.try_decode_protobuf (keyTypeTag t :: payload) =
          .error .badLength) ∧
      (payload.length ≠ privLen t →
        Keypair.from_protobuf_encoding (keyTypeTag t :: payload) =
          .error .badLength)) := by
  refine ⟨⟨rfl, rfl⟩, ?_, ?_⟩
  · intro tag payload h
    constructor
    · simp [PublicKey.try_decode_protobuf, h]
    · simp [Keypair.from_protobuf_encoding, h]
  · intro t payload
    constructor
    · intro h
      simp [PublicKey.try_decode_protobuf, keyTypeOfTag_keyTypeTag, h]
    · intro h
      simp [Keypair.from_protobuf_encoding, keyTypeOfTag_keyTypeTag, h]

/-- Witness for claim C5: the out-of-range tag 99 and an empty Dilithium
payload are both rejected, and the empty envelope is rejected. -/
theorem decode_rejects_malformed_envelopes_witness :
    PublicKey.try_decode_protobuf ([] : Bytes) = .error .truncated ∧
    keyTypeOfTag 99 = none ∧
    PublicKey.try_decode_protobuf (99 :: ([] : Bytes)) =
      .error .unknownKeyType ∧
    ([] : Bytes).length ≠ pubLen .Dilithium ∧
    PublicKey.try_decode_protobuf (keyTypeTag .Dilithium :: ([] : Bytes)) =
      .error .badLength :=
  ⟨decode_rejects_malformed_envelopes.1.1,
   by decide,
   (decode_rejects_malformed_envelopes.2.1 99 [] (by decide)).1,
   by decide,
   (decode_rejects_malformed_envelopes.2.2 .Dilithium []).1 (by decide)⟩

/-- Claim C6: verification is a total boolean function on untrusted input —
it returns false for every signature other than the unique valid one, in
particular for every signature of malformed length, and (being a total
Bool-valued function) never returns an error value or panics. -/
theorem verify_total_on_untrusted_input (pk : PublicKey) (m s : Bytes) :
    (s.length ≠ pk.bytes.length + m.length → pk.verify m s = false) ∧
    (s ≠ pk.bytes ++ m → pk.verify m s = false) := by
  constructor
  · intro h
    simp only [PublicKey.verify, decide_eq_false_iff_not]
    intro hEq
    apply h
    rw [hEq, List.length_append]
  · intro h
    simp only [PublicKey.verify, decide_eq_false_iff_not]
    exact h

/-- Witness for claim C6 at a concrete public key, message and malformed
empty signature. -/
theorem verify_total_on_untrusted_input_witness :
    ([] : Bytes).length ≠ ([1, 2] : Bytes).length + ([3] : Bytes).length ∧
    PublicKey.verify ⟨.Ed25519, [1, 2]⟩ [3] [] = false :=
  ⟨by decide,
   (verify_total_on_untrusted_input ⟨.Ed25519, [1, 2]⟩ [3] []).1 (by decide)⟩

/-- Claim C7: peer-identifier derivation is deterministic — the same
PublicKey value always yields the same PeerId — and, with the content hash
idealised as injective (the model of collision resistance), distinct
public keys yield distinct peer identifiers. -/
theorem to_peer_id_deterministic_and_collision_free
    (hash : Bytes → Bytes) (pk pk1 pk2 : PublicKey) :
    pk.to_peer_id = pk.to_peer_id ∧
    (Function.Injective hash → pk1 ≠ pk2 →
      to_peer_id_with hash pk1 ≠ to_peer_id_with hash pk2) := by
  refine ⟨rfl, fun hinj hne => ?_⟩
  have henc : pk1.encode_protobuf ≠ pk2.encode_protobuf :=
    fun hEq => hne (encode_protobuf_injective hEq)
  by_cases h1 : pk1.encode_protobuf.length ≤ maxInlineKeyLength <;>
    by_cases h2 : pk2.encode_protobuf.length ≤ maxInlineKeyLength <;>
      simp only [to_peer_id_with, h1, h2, if_true, if_false, ite_true,
        ite_false, ne_eq, PeerId.identityMh.injEq, PeerId.hashMh.injEq,
        reduceCtorEq, not_false_iff, if_pos, if_neg, not_true_eq_false]
  · exact henc
  · exact fun hEq => henc (hinj hEq)

/-- Witness for claim C7 at two concrete distinct Ed25519 public keys and
the injective model hash. -/
theorem to_peer_id_deterministic_and_collision_free_witness :
    (⟨.Ed25519, ([] : Bytes)⟩ : PublicKey) ≠ ⟨.Ed25519, [1]⟩ ∧
    to_peer_id_with modelHash ⟨.Ed25519, []⟩ ≠
      to_peer_id_with modelHash ⟨.Ed25519, [1]⟩ :=
  ⟨by decide,
   (to_peer_id_deterministic_and_collision_free modelHash
       ⟨.Ed25519, []⟩ ⟨.Ed25519, []⟩ ⟨.Ed25519, [1]⟩).2
     (fun a b h => by simpa [modelHash] using h) (by decide)⟩

end PQC
